import Mathlib

/-!
# Verification of the debt payoff engine (`src/debt_payoff.py`)

Shallow embedding of `calculate_debt_payoff` and the definitions it uses.
Monetary quantities are modelled as exact rationals (`ℚ`): the source uses
Python numbers and every claim under scrutiny is about the arithmetic content
of the algorithm, not about floating-point rounding.

Correspondence with the source:
* `Debt`                 — the debt dicts (`name`, `balance`, `interest_rate`,
                           `min_payment`).
* `debtError`/`validate` — the validation block, lines 27-48.
* `sortDebts`            — the strategy ordering, lines 54-57.  Python's
                           `sorted` is a stable sort by the given key;
                           `List.insertionSort` with the corresponding
                           (total, transitive) relation is extensionally the
                           same stable sort.
* `debtStep`             — one iteration of the inner `for debt in debts`
                           loop, lines 68-89 (skip of paid-off debts,
                           interest, payment choice, pool update, principal,
                           recorded row, interest accumulation).
* `monthLoop`            — the whole inner loop for one month, threading the
                           remaining extra pool left to right.
* `simulate`             — the outer `while` loop, lines 64-95, with the
                           month counter made explicit fuel
                           (`month ≤ MAX_PAYOFF_MONTHS` becomes fuel
                           exhaustion).
* `calculate_debt_payoff` — the top level function; a raised `ValueError`
                           becomes `Except.error`.
* `MonthlyRecord`        — one `monthly_summary` dict: month index, total
                           payment, cumulative interest, and the per-debt
                           columns that the month actually wrote (`rows`,
                           one entry per debt that was open at the start of
                           the month, in strategy order).
-/

namespace DebtPayoff

/-- A debt record: `{'name': …, 'balance': …, 'interest_rate': …, 'min_payment': …}`. -/
structure Debt where
  name : String
  balance : ℚ
  interest_rate : ℚ
  min_payment : ℚ
  deriving DecidableEq

/-- `debt["balance"] * (debt["interest_rate"] / 100) / 12` (lines 39 and 72). -/
def monthlyInterest (d : Debt) : ℚ :=
  d.balance * (d.interest_rate / 100) / 12

/-- The per-debt validation checks of lines 30-45, in source order; `none`
means the debt passes.  The message text is abbreviated (the claims only
depend on whether an error is raised). -/
def debtError (extra_payment : ℚ) (d : Debt) : Option String :=
  if d.balance ≤ 0 then some (d.name ++ ": must have a positive balance")
  else if d.interest_rate < 0 then some (d.name ++ ": interest rate cannot be negative")
  else if d.min_payment ≤ 0 then some (d.name ++ ": must have a positive minimum payment")
  else if d.min_payment ≤ monthlyInterest d ∧ extra_payment = 0 then
    some (d.name ++ ": minimum payment does not cover monthly interest")
  else none

/-- The whole validation block, lines 27-48: empty-list check, then the
per-debt loop (first failing debt raises), then the extra-payment check. -/
def validate (debts : List Debt) (extra_payment : ℚ) : Except String Unit :=
  if debts.isEmpty then Except.error "At least one debt is required"
  else
    match debts.findSome? (debtError extra_payment) with
    | some e => Except.error e
    | none =>
      if extra_payment < 0 then Except.error "Extra payment cannot be negative"
      else Except.ok ()

/-- Snowball comparison: ascending balance (line 55). -/
def balanceLe (a b : Debt) : Prop := a.balance ≤ b.balance

/-- Avalanche comparison: descending interest rate (line 57,
`sorted(…, reverse=True)` compares in the reversed order, keeping ties
stable). -/
def rateGe (a b : Debt) : Prop := b.interest_rate ≤ a.interest_rate

instance : DecidableRel balanceLe :=
  fun a b => inferInstanceAs (Decidable (a.balance ≤ b.balance))

instance : DecidableRel rateGe :=
  fun a b => inferInstanceAs (Decidable (b.interest_rate ≤ a.interest_rate))

instance : IsTotal Debt balanceLe := ⟨fun a b => le_total a.balance b.balance⟩

instance : IsTrans Debt balanceLe := ⟨fun _ _ _ h1 h2 => le_trans h1 h2⟩

instance : IsTotal Debt rateGe := ⟨fun a b => le_total b.interest_rate a.interest_rate⟩

instance : IsTrans Debt rateGe := ⟨fun _ _ _ h1 h2 => le_trans h2 h1⟩

/-- Lines 54-57: an unrecognised method leaves the input order unchanged. -/
def sortDebts (method : String) (debts : List Debt) : List Debt :=
  if method = "snowball" then List.insertionSort balanceLe debts
  else if method = "avalanche" then List.insertionSort rateGe debts
  else debts

/-- The three per-debt columns written into a `monthly_summary`
(`Debt <name> Balance` / `Payment` / `Interest`, lines 87-89). -/
structure DebtRow where
  name : String
  balance : ℚ
  payment : ℚ
  interest : ℚ
  deriving DecidableEq

/-- Result of processing one debt inside the month loop. -/
structure StepResult where
  debt : Debt
  row : Option DebtRow
  pool : ℚ
  interest : ℚ
  deriving DecidableEq

/-- One iteration of the `for debt in debts` body, lines 68-89.  A paid-off
debt is skipped (`continue`, line 70): unchanged, no row, no interest. -/
def debtStep (pool : ℚ) (d : Debt) : StepResult :=
  if d.balance ≤ 0 then { debt := d, row := none, pool := pool, interest := 0 }
  else
    let interest := monthlyInterest d
    let payment :=
      if d.balance + interest ≤ d.min_payment then d.balance + interest
      else d.min_payment + (if 0 < pool then pool else 0)
    let pool2 := pool - max 0 (payment - (interest + d.min_payment))
    let newBalance := d.balance - (payment - interest)
    { debt := { d with balance := newBalance },
      row := some { name := d.name, balance := newBalance,
                    payment := payment, interest := interest },
      pool := pool2,
      interest := interest }

/-- Result of one month: updated debts, the rows written that month
(in order), and the interest accrued that month. -/
structure MonthResult where
  debts : List Debt
  rows : List DebtRow
  interestSum : ℚ
  deriving DecidableEq

/-- The full inner loop for one month, threading the remaining extra pool
through the debts left to right. -/
def monthLoop (pool : ℚ) : List Debt → MonthResult
  | [] => { debts := [], rows := [], interestSum := 0 }
  | d :: ds =>
    let s := debtStep pool d
    let rest := monthLoop s.pool ds
    { debts := s.debt :: rest.debts,
      rows := s.row.toList ++ rest.rows,
      interestSum := s.interest + rest.interestSum }

/-- One `monthly_summary` dict (lines 65, 87-92): the month index, the
month's total payment (line 91: the sum of the per-debt payment columns that
are present), the cumulative interest after the month (line 92), and the
per-debt columns written that month. -/
structure MonthlyRecord where
  month : Nat
  totalPayment : ℚ
  totalInterestPaid : ℚ
  rows : List DebtRow
  deriving DecidableEq

/-- The outer `while` loop, lines 64-95.  `fuel` counts the months still
allowed by `month <= MAX_PAYOFF_MONTHS`; the loop also stops as soon as no
debt has a positive balance (`any(debt["balance"] > 0)` fails). -/
def simulate : Nat → Nat → ℚ → ℚ → List Debt → List MonthlyRecord
  | 0, _, _, _, _ => []
  | fuel + 1, month, extra_payment, totalInterest, debts =>
    if ∀ d ∈ debts, d.balance ≤ 0 then []
    else
      let m := monthLoop extra_payment debts
      { month := month,
        totalPayment := (m.rows.map DebtRow.payment).sum,
        totalInterestPaid := totalInterest + m.interestSum,
        rows := m.rows } ::
        simulate fuel (month + 1) extra_payment (totalInterest + m.interestSum) m.debts

/-- Line 9: `MAX_PAYOFF_MONTHS = 1200`. -/
def MAX_PAYOFF_MONTHS : Nat := 1200

/-- `calculate_debt_payoff(debts, method, extra_payment)`, lines 12-97:
validation, strategy ordering, then the month-by-month simulation. -/
def calculate_debt_payoff (debts : List Debt) (method : String) (extra_payment : ℚ) :
    Except String (List MonthlyRecord) :=
  match validate debts extra_payment with
  | Except.error e => Except.error e
  | Except.ok _ =>
    Except.ok (simulate MAX_PAYOFF_MONTHS 1 extra_payment 0 (sortDebts method debts))

/-- The debt state reached after `n` further months of simulation. -/
def runMonths (extra_payment : ℚ) : Nat → List Debt → List Debt
  | 0, debts => debts
  | n + 1, debts => runMonths extra_payment n (monthLoop extra_payment debts).debts

/-- The facts validation guarantees of every debt when `extra_payment = 0`,
kept invariant by the simulation: non-negative balance and rate, positive
minimum payment, and (while the debt is open) a minimum payment strictly
above the month's interest. -/
def GoodDebt (d : Debt) : Prop :=
  0 ≤ d.balance ∧ 0 ≤ d.interest_rate ∧ 0 < d.min_payment ∧
    (0 < d.balance → monthlyInterest d < d.min_payment)

/-! ### Concrete inputs used by counterexamples, scenario checks and
witnesses -/

/-- Scenario A of the spec: one debt, balance 1200, rate 0, minimum 100. -/
def debtsScenarioA : List Debt := [⟨"D1", 1200, 0, 100⟩]

/-- The ledger Scenario A produces. -/
def ledgerScenarioA : List MonthlyRecord :=
  (calculate_debt_payoff debtsScenarioA "snowball" 0).toOption.getD []

/-- A validated single debt whose extra payment (100) exceeds its balance
(10): the month-1 payment is 5 + 100 = 105 against a balance of 10. -/
def debtsOverpay : List Debt := [⟨"A", 10, 0, 5⟩]

/-- The ledger of `debtsOverpay` with extra payment 100. -/
def ledgerOverpay : List MonthlyRecord :=
  (calculate_debt_payoff debtsOverpay "snowball" 100).toOption.getD []

/-- Two zero-rate debts; "A" pays off in month 1, "B" in month 3. -/
def debtsTwo : List Debt := [⟨"A", 100, 0, 100⟩, ⟨"B", 300, 0, 100⟩]

/-- The ledger of `debtsTwo`: its month-2 and month-3 records carry no
columns for the paid-off debt "A". -/
def ledgerTwo : List MonthlyRecord :=
  (calculate_debt_payoff debtsTwo "snowball" 0).toOption.getD []

/-- Debt "X" has monthly interest 1000 * (12/100) / 12 = 10, so with extra
pool 30 it consumes only 30 - 10 = 20 of the pool. -/
def debtsPool : List Debt := [⟨"X", 1000, 12, 50⟩, ⟨"Y", 2000, 0, 50⟩]

/-- The ledger of `debtsPool` with extra payment 30: month 1 pays
50 + 30 = 80 on "X" and 50 + 10 = 60 on "Y", total 140 > 50 + 50 + 30. -/
def ledgerPool : List MonthlyRecord :=
  (calculate_debt_payoff debtsPool "snowball" 30).toOption.getD []

/-- One debt paid off in a single month; used to instantiate theorems about
validated runs at a concrete input. -/
def debtsOne : List Debt := [⟨"A", 100, 0, 100⟩]

/-- The one-record ledger of `debtsOne`. -/
def ledgerOne : List MonthlyRecord :=
  (calculate_debt_payoff debtsOne "snowball" 0).toOption.getD []

end DebtPayoff

/- Batteries marks the rational field operations irreducible for elaboration
performance; concrete runs of the engine are evaluated inside proofs here,
so restore their reducibility for this file. -/
attribute [local semireducible] Rat.mul Rat.add Rat.sub Rat.inv

namespace DebtPayoff

/-! ### One debt step -/

theorem debtStep_name (p : ℚ) (d : Debt) : (debtStep p d).debt.name = d.name := by
  unfold debtStep; split <;> rfl

theorem debtStep_rate (p : ℚ) (d : Debt) :
    (debtStep p d).debt.interest_rate = d.interest_rate := by
  unfold debtStep; split <;> rfl

theorem debtStep_min (p : ℚ) (d : Debt) :
    (debtStep p d).debt.min_payment = d.min_payment := by
  unfold debtStep; split <;> rfl

theorem debtStep_of_closed (p : ℚ) (d : Debt) (h : d.balance ≤ 0) :
    debtStep p d = { debt := d, row := none, pool := p, interest := 0 } := by
  unfold debtStep; rw [if_pos h]

theorem debtStep_row_none (p : ℚ) (d : Debt) (h : d.balance ≤ 0) :
    (debtStep p d).row = none := by
  rw [debtStep_of_closed p d h]

theorem debtStep_open_row (p : ℚ) (d : Debt) (h : 0 < d.balance) :
    ∃ r, (debtStep p d).row = some r ∧ r.name = d.name ∧
      r.interest = monthlyInterest d ∧
      r.balance = d.balance - (r.payment - r.interest) ∧
      (debtStep p d).debt.balance = r.balance ∧
      (debtStep p d).interest = monthlyInterest d := by
  unfold debtStep
  rw [if_neg (not_le.mpr h)]
  exact ⟨_, rfl, rfl, rfl, rfl, rfl, rfl⟩

theorem monthlyInterest_nonneg (d : Debt) (hb : 0 ≤ d.balance)
    (hr : 0 ≤ d.interest_rate) : 0 ≤ monthlyInterest d :=
  div_nonneg (mul_nonneg hb (div_nonneg hr (by norm_num))) (by norm_num)

theorem debtStep_pool_zero (d : Debt) (hr : 0 ≤ d.interest_rate) :
    (debtStep 0 d).pool = 0 := by
  by_cases hb : d.balance ≤ 0
  · rw [debtStep_of_closed 0 d hb]
  · have hb' : 0 < d.balance := not_le.mp hb
    have hi : 0 ≤ monthlyInterest d := monthlyInterest_nonneg d hb'.le hr
    unfold debtStep
    rw [if_neg hb]
    simp only [lt_self_iff_false, if_false]
    split
    · rename_i hp
      rw [max_eq_left (by linarith)]
      norm_num
    · rw [max_eq_left (by linarith)]
      norm_num

theorem monthlyInterest_mono (d : Debt) (b : ℚ) (hr : 0 ≤ d.interest_rate)
    (h : b ≤ d.balance) :
    monthlyInterest { d with balance := b } ≤ monthlyInterest d := by
  show b * (d.interest_rate / 100) / 12 ≤ d.balance * (d.interest_rate / 100) / 12
  have h12 : (0:ℚ) < 12 := by norm_num
  exact (div_le_div_iff_of_pos_right h12).mpr
    (mul_le_mul_of_nonneg_right h (div_nonneg hr (by norm_num)))

theorem debtStep_zero_good (d : Debt) (hd : GoodDebt d) :
    GoodDebt (debtStep 0 d).debt ∧
    (debtStep 0 d).debt.balance ≤ d.balance ∧
    0 ≤ (debtStep 0 d).debt.balance := by
  obtain ⟨hb0, hr, hm, hcov⟩ := hd
  by_cases hb : d.balance ≤ 0
  · rw [debtStep_of_closed 0 d hb]
    exact ⟨⟨hb0, hr, hm, hcov⟩, le_refl _, hb0⟩
  · have hb' : 0 < d.balance := not_le.mp hb
    have hi : 0 ≤ monthlyInterest d := monthlyInterest_nonneg d hb'.le hr
    have hcov' : monthlyInterest d < d.min_payment := hcov hb'
    unfold debtStep
    rw [if_neg hb]
    simp only [lt_self_iff_false, if_false]
    split
    · rename_i hp
      refine ⟨⟨?_, hr, hm, fun h0 => ?_⟩, ?_, ?_⟩
      · show 0 ≤ d.balance - (d.balance + monthlyInterest d - monthlyInterest d)
        linarith
      · exfalso
        have h0' : 0 < d.balance - (d.balance + monthlyInterest d - monthlyInterest d) := h0
        linarith
      · show d.balance - (d.balance + monthlyInterest d - monthlyInterest d) ≤ d.balance
        linarith
      · show 0 ≤ d.balance - (d.balance + monthlyInterest d - monthlyInterest d)
        linarith
    · rename_i hp
      have hp' : d.min_payment < d.balance + monthlyInterest d := not_le.mp hp
      have hle : d.balance - (d.min_payment + 0 - monthlyInterest d) ≤ d.balance := by linarith
      have hpos : 0 ≤ d.balance - (d.min_payment + 0 - monthlyInterest d) := by linarith
      refine ⟨⟨hpos, hr, hm, fun _ => ?_⟩, hle, hpos⟩
      calc monthlyInterest { d with balance := d.balance - (d.min_payment + 0 - monthlyInterest d) }
          ≤ monthlyInterest d := monthlyInterest_mono d _ hr hle
        _ < d.min_payment := hcov'

/-! ### One month of the simulation -/

theorem monthLoop_nil (p : ℚ) : monthLoop p [] = ⟨[], [], 0⟩ := rfl

theorem monthLoop_cons (p : ℚ) (d : Debt) (ds : List Debt) :
    monthLoop p (d :: ds) =
      { debts := (debtStep p d).debt :: (monthLoop (debtStep p d).pool ds).debts,
        rows := (debtStep p d).row.toList ++ (monthLoop (debtStep p d).pool ds).rows,
        interestSum :=
          (debtStep p d).interest + (monthLoop (debtStep p d).pool ds).interestSum } := rfl

theorem monthLoop_map_name (p : ℚ) (ds : List Debt) :
    (monthLoop p ds).debts.map Debt.name = ds.map Debt.name := by
  induction ds generalizing p with
  | nil => rfl
  | cons d ds ih => rw [monthLoop_cons]; simp [debtStep_name, ih]

theorem monthLoop_map_rate (p : ℚ) (ds : List Debt) :
    (monthLoop p ds).debts.map Debt.interest_rate = ds.map Debt.interest_rate := by
  induction ds generalizing p with
  | nil => rfl
  | cons d ds ih => rw [monthLoop_cons]; simp [debtStep_rate, ih]

theorem monthLoop_rows_map_name (p : ℚ) (ds : List Debt) :
    (monthLoop p ds).rows.map DebtRow.name =
      (ds.filter fun d => decide (0 < d.balance)).map Debt.name := by
  induction ds generalizing p with
  | nil => rfl
  | cons d ds ih =>
    rw [monthLoop_cons]
    by_cases hb : d.balance ≤ 0
    · rw [debtStep_row_none _ _ hb]
      simp [List.filter_cons, not_lt.mpr hb, ih]
    · have hb' : 0 < d.balance := not_le.mp hb
      obtain ⟨r, hr, hname, -, -, -, -⟩ := debtStep_open_row p d hb'
      rw [hr]
      simp [List.filter_cons, hb', ih, hname]

theorem monthLoop_rows_spec (p : ℚ) (ds : List Debt) :
    ∀ r ∈ (monthLoop p ds).rows, ∃ d ∈ ds, 0 < d.balance ∧ r.name = d.name ∧
      r.interest = monthlyInterest d ∧
      r.balance = d.balance - (r.payment - r.interest) := by
  induction ds generalizing p with
  | nil => intro r hr; cases hr
  | cons d ds ih =>
    intro r hr
    rw [monthLoop_cons] at hr
    rcases List.mem_append.mp hr with h1 | h2
    · by_cases hb : d.balance ≤ 0
      · rw [debtStep_row_none _ _ hb] at h1; cases h1
      · have hb' : 0 < d.balance := not_le.mp hb
        obtain ⟨r0, hrow, hname, hint, hbal, -, -⟩ := debtStep_open_row p d hb'
        rw [hrow] at h1
        have hr0 : r = r0 := by simpa using h1
        subst hr0
        exact ⟨d, List.mem_cons_self d ds, hb', hname, hint, hbal⟩
    · obtain ⟨d0, hd0, h⟩ := ih _ r h2
      exact ⟨d0, List.mem_cons_of_mem d hd0, h⟩

theorem monthLoop_interestSum (p : ℚ) (ds : List Debt) :
    (monthLoop p ds).interestSum = ((monthLoop p ds).rows.map DebtRow.interest).sum := by
  induction ds generalizing p with
  | nil => rfl
  | cons d ds ih =>
    rw [monthLoop_cons]
    by_cases hb : d.balance ≤ 0
    · rw [debtStep_row_none _ _ hb, debtStep_of_closed p d hb]
      simpa using ih p
    · have hb' : 0 < d.balance := not_le.mp hb
      obtain ⟨r0, hrow, -, hint, -, -, hstep⟩ := debtStep_open_row p d hb'
      rw [hrow, hstep]
      simp [ih, hint]

theorem monthLoop_interestSum_nonneg (p : ℚ) (ds : List Debt)
    (h : ∀ d ∈ ds, 0 ≤ d.interest_rate) :
    0 ≤ (monthLoop p ds).interestSum := by
  rw [monthLoop_interestSum]
  apply List.sum_nonneg
  intro x hx
  rcases List.mem_map.mp hx with ⟨r, hr, rfl⟩
  obtain ⟨d, hd, hdpos, -, hint, -⟩ := monthLoop_rows_spec p ds r hr
  rw [hint]
  exact monthlyInterest_nonneg d hdpos.le (h d hd)

theorem monthLoop_zero_spec (ds : List Debt) (hG : ∀ d ∈ ds, GoodDebt d) :
    (∀ d ∈ (monthLoop 0 ds).debts, GoodDebt d) ∧
    (∀ r ∈ (monthLoop 0 ds).rows, ∃ d ∈ (monthLoop 0 ds).debts,
        d.name = r.name ∧ d.balance = r.balance) ∧
    (∀ r ∈ (monthLoop 0 ds).rows, ∃ d ∈ ds,
        d.name = r.name ∧ r.balance ≤ d.balance ∧ 0 ≤ r.balance) := by
  induction ds with
  | nil =>
    refine ⟨?_, ?_, ?_⟩ <;> intro x hx <;> rw [monthLoop_nil] at hx <;> cases hx
  | cons d ds ih =>
    have hGd : GoodDebt d := hG d (List.mem_cons_self d ds)
    have hGds : ∀ x ∈ ds, GoodDebt x := fun x hx => hG x (List.mem_cons_of_mem d hx)
    have hpool : (debtStep 0 d).pool = 0 := debtStep_pool_zero d hGd.2.1
    obtain ⟨ihG, ihNew, ihOld⟩ := ih hGds
    obtain ⟨hgood, hle, hnn⟩ := debtStep_zero_good d hGd
    refine ⟨?_, ?_, ?_⟩
    · intro x hx
      rw [monthLoop_cons, hpool] at hx
      rcases List.mem_cons.mp hx with h | h
      · exact h ▸ hgood
      · exact ihG x h
    · intro r hr
      rw [monthLoop_cons, hpool] at hr ⊢
      rcases List.mem_append.mp hr with h1 | h2
      · by_cases hb : d.balance ≤ 0
        · rw [debtStep_row_none _ _ hb] at h1; cases h1
        · have hb' : 0 < d.balance := not_le.mp hb
          obtain ⟨r0, hrow, hname, -, -, hbal, -⟩ := debtStep_open_row 0 d hb'
          rw [hrow] at h1
          have hr0 : r = r0 := by simpa using h1
          subst hr0
          refine ⟨(debtStep 0 d).debt, List.mem_cons_self _ _, ?_, ?_⟩
          · rw [debtStep_name, hname]
          · exact hbal
      · obtain ⟨d0, hd0, h⟩ := ihNew r h2
        exact ⟨d0, List.mem_cons_of_mem _ hd0, h⟩
    · intro r hr
      rw [monthLoop_cons, hpool] at hr
      rcases List.mem_append.mp hr with h1 | h2
      · by_cases hb : d.balance ≤ 0
        · rw [debtStep_row_none _ _ hb] at h1; cases h1
        · have hb' : 0 < d.balance := not_le.mp hb
          obtain ⟨r0, hrow, hname, -, -, hbal, -⟩ := debtStep_open_row 0 d hb'
          rw [hrow] at h1
          have hr0 : r = r0 := by simpa using h1
          subst hr0
          refine ⟨d, List.mem_cons_self d ds, hname.symm, ?_, ?_⟩
          · rw [← hbal]; exact hle
          · rw [← hbal]; exact hnn
      · obtain ⟨d0, hd0, h⟩ := ihOld r h2
        exact ⟨d0, List.mem_cons_of_mem d hd0, h⟩

/-! ### The state after `n` months -/

theorem runMonths_zero_months (ex : ℚ) (ds : List Debt) : runMonths ex 0 ds = ds := rfl

theorem runMonths_succ (ex : ℚ) (n : Nat) (ds : List Debt) :
    runMonths ex (n + 1) ds = runMonths ex n (monthLoop ex ds).debts := rfl

theorem runMonths_succ_back (ex : ℚ) (n : Nat) (ds : List Debt) :
    runMonths ex (n + 1) ds = (monthLoop ex (runMonths ex n ds)).debts := by
  induction n generalizing ds with
  | zero => rfl
  | succ n ih => rw [runMonths_succ, ih, runMonths_succ]

theorem runMonths_map_name (ex : ℚ) (n : Nat) (ds : List Debt) :
    (runMonths ex n ds).map Debt.name = ds.map Debt.name := by
  induction n generalizing ds with
  | zero => rfl
  | succ n ih => rw [runMonths_succ, ih, monthLoop_map_name]

theorem runMonths_map_rate (ex : ℚ) (n : Nat) (ds : List Debt) :
    (runMonths ex n ds).map Debt.interest_rate = ds.map Debt.interest_rate := by
  induction n generalizing ds with
  | zero => rfl
  | succ n ih => rw [runMonths_succ, ih, monthLoop_map_rate]

theorem runMonths_zero_good (n : Nat) (ds : List Debt) (hG : ∀ d ∈ ds, GoodDebt d) :
    ∀ d ∈ runMonths 0 n ds, GoodDebt d := by
  induction n generalizing ds with
  | zero => exact hG
  | succ n ih =>
    rw [runMonths_succ]
    exact ih _ (monthLoop_zero_spec ds hG).1

/-! ### The month-by-month loop -/

theorem simulate_fuel_zero (month : Nat) (ex ti : ℚ) (ds : List Debt) :
    simulate 0 month ex ti ds = [] := rfl

theorem simulate_succ (fuel month : Nat) (ex ti : ℚ) (ds : List Debt) :
    simulate (fuel + 1) month ex ti ds =
      if ∀ d ∈ ds, d.balance ≤ 0 then []
      else
        { month := month,
          totalPayment := ((monthLoop ex ds).rows.map DebtRow.payment).sum,
          totalInterestPaid := ti + (monthLoop ex ds).interestSum,
          rows := (monthLoop ex ds).rows } ::
          simulate fuel (month + 1) ex (ti + (monthLoop ex ds).interestSum)
            (monthLoop ex ds).debts := rfl

theorem simulate_length_le (fuel : Nat) :
    ∀ (month : Nat) (ex ti : ℚ) (ds : List Debt),
      (simulate fuel month ex ti ds).length ≤ fuel := by
  induction fuel with
  | zero => intro month ex ti ds; rw [simulate_fuel_zero]; exact Nat.le_refl 0
  | succ fuel ih =>
    intro month ex ti ds
    rw [simulate_succ]
    split
    · exact Nat.zero_le _
    · rw [List.length_cons]
      exact Nat.succ_le_succ (ih (month + 1) ex _ _)

theorem simulate_short_all_paid (fuel : Nat) :
    ∀ (month : Nat) (ex ti : ℚ) (ds : List Debt),
      (simulate fuel month ex ti ds).length < fuel →
      ∀ d ∈ runMonths ex (simulate fuel month ex ti ds).length ds, d.balance ≤ 0 := by
  induction fuel with
  | zero => intro month ex ti ds h; exact absurd h (Nat.not_lt_zero _)
  | succ fuel ih =>
    intro month ex ti ds h
    by_cases hall : ∀ d ∈ ds, d.balance ≤ 0
    · rw [simulate_succ, if_pos hall]
      exact hall
    · rw [simulate_succ, if_neg hall] at h ⊢
      rw [List.length_cons] at h ⊢
      rw [runMonths_succ]
      exact ih (month + 1) ex _ _ (Nat.lt_of_succ_lt_succ h)

theorem simulate_stops_by (k : Nat) :
    ∀ (fuel month : Nat) (ex ti : ℚ) (ds : List Debt),
      (∀ d ∈ runMonths ex k ds, d.balance ≤ 0) →
      (simulate fuel month ex ti ds).length ≤ k := by
  induction k with
  | zero =>
    intro fuel month ex ti ds h
    rw [runMonths_zero_months] at h
    cases fuel with
    | zero => rw [simulate_fuel_zero]; exact Nat.le_refl 0
    | succ fuel => rw [simulate_succ, if_pos h]; exact Nat.le_refl 0
  | succ k ih =>
    intro fuel month ex ti ds h
    cases fuel with
    | zero => rw [simulate_fuel_zero]; exact Nat.zero_le _
    | succ fuel =>
      by_cases hall : ∀ d ∈ ds, d.balance ≤ 0
      · rw [simulate_succ, if_pos hall]; exact Nat.zero_le _
      · rw [simulate_succ, if_neg hall, List.length_cons]
        rw [runMonths_succ] at h
        exact Nat.succ_le_succ (ih fuel (month + 1) ex _ _ h)

theorem simulate_get?_spec (fuel : Nat) :
    ∀ (month : Nat) (ex ti : ℚ) (ds : List Debt) (i : Nat) (r : MonthlyRecord),
      (simulate fuel month ex ti ds).get? i = some r →
      r.month = month + i ∧
      r.rows = (monthLoop ex (runMonths ex i ds)).rows ∧
      r.totalPayment = (r.rows.map DebtRow.payment).sum ∧
      r.totalInterestPaid = ti + (((simulate fuel month ex ti ds).take (i + 1)).map
        (fun x => (x.rows.map DebtRow.interest).sum)).sum := by
  induction fuel with
  | zero => intro month ex ti ds i r h; rw [simulate_fuel_zero] at h; cases h
  | succ fuel ih =>
    intro month ex ti ds i r h
    by_cases hall : ∀ d ∈ ds, d.balance ≤ 0
    · rw [simulate_succ, if_pos hall] at h; cases h
    · rw [simulate_succ, if_neg hall] at h ⊢
      cases i with
      | zero =>
        rw [List.get?_cons_zero] at h
        injection h with h
        subst h
        refine ⟨by simp, ?_, rfl, ?_⟩
        · rw [runMonths_zero_months]
        · show ti + (monthLoop ex ds).interestSum =
            ti + (((monthLoop ex ds).rows.map DebtRow.interest).sum + 0)
          rw [monthLoop_interestSum]
          ring
      | succ i =>
        have h' := ih (month + 1) ex (ti + (monthLoop ex ds).interestSum)
          (monthLoop ex ds).debts i r (by simpa using h)
        obtain ⟨h1, h2, h3, h4⟩ := h'
        refine ⟨?_, ?_, h3, ?_⟩
        · rw [h1]; omega
        · rw [h2, runMonths_succ]
        · rw [h4, List.take_succ_cons, List.map_cons, List.sum_cons,
            monthLoop_interestSum]
          ring

/-! ### Validation -/

theorem findSome?_none_iff {α β : Type} (f : α → Option β) (l : List α) :
    l.findSome? f = none ↔ ∀ a ∈ l, f a = none := by
  induction l with
  | nil => simp [List.findSome?]
  | cons a l ih =>
    rw [List.findSome?]
    cases hfa : f a with
    | some b => simp [hfa]
    | none => simp [hfa, ih]

theorem debtError_eq_none (ex : ℚ) (d : Debt) :
    debtError ex d = none ↔
      0 < d.balance ∧ 0 ≤ d.interest_rate ∧ 0 < d.min_payment ∧
        ¬ (d.min_payment ≤ monthlyInterest d ∧ ex = 0) := by
  unfold debtError
  split_ifs with h1 h2 h3 h4
  · exact ⟨fun h => (nomatch h), fun ⟨hb, _, _, _⟩ => absurd hb (not_lt.mpr h1)⟩
  · exact ⟨fun h => (nomatch h), fun ⟨_, hr, _, _⟩ => absurd h2 (not_lt.mpr hr)⟩
  · exact ⟨fun h => (nomatch h), fun ⟨_, _, hm, _⟩ => absurd hm (not_lt.mpr h3)⟩
  · exact ⟨fun h => (nomatch h), fun ⟨_, _, _, hx⟩ => absurd h4 hx⟩
  · exact ⟨fun _ => ⟨not_le.mp h1, not_lt.mp h2, not_le.mp h3, h4⟩, fun _ => rfl⟩

theorem validate_ok_iff (debts : List Debt) (ex : ℚ) :
    validate debts ex = Except.ok () ↔
      debts ≠ [] ∧ (∀ d ∈ debts, debtError ex d = none) ∧ 0 ≤ ex := by
  unfold validate
  by_cases he : debts.isEmpty
  · rw [if_pos he]
    simp [List.isEmpty_iff.mp he]
  · rw [if_neg he]
    have hne : debts ≠ [] := fun h => he (by simp [h])
    split
    · rename_i e heq
      constructor
      · intro h; exact nomatch h
      · rintro ⟨-, hall, -⟩
        rw [(findSome?_none_iff (debtError ex) debts).mpr hall] at heq
        exact nomatch heq
    · rename_i heq
      have hall := (findSome?_none_iff (debtError ex) debts).mp heq
      by_cases hex : ex < 0
      · rw [if_pos hex]
        constructor
        · intro h; exact nomatch h
        · rintro ⟨-, -, hex2⟩
          exact absurd hex (not_lt.mpr hex2)
      · rw [if_neg hex]
        exact ⟨fun _ => ⟨hne, hall, not_lt.mp hex⟩, fun _ => rfl⟩

theorem validate_ok_debts (debts : List Debt) (ex : ℚ)
    (h : validate debts ex = Except.ok ()) :
    ∀ d ∈ debts, 0 < d.balance ∧ 0 ≤ d.interest_rate ∧ 0 < d.min_payment ∧
      (ex = 0 → monthlyInterest d < d.min_payment) := by
  obtain ⟨-, hall, -⟩ := (validate_ok_iff debts ex).mp h
  intro d hd
  obtain ⟨hb, hr, hm, hx⟩ := (debtError_eq_none ex d).mp (hall d hd)
  refine ⟨hb, hr, hm, fun h0 => ?_⟩
  by_contra hc
  exact hx ⟨not_lt.mp hc, h0⟩

theorem validate_ok_ex_nonneg (debts : List Debt) (ex : ℚ)
    (h : validate debts ex = Except.ok ()) : 0 ≤ ex :=
  ((validate_ok_iff debts ex).mp h).2.2

theorem validate_ok_good (debts : List Debt)
    (h : validate debts 0 = Except.ok ()) : ∀ d ∈ debts, GoodDebt d := by
  intro d hd
  obtain ⟨hb, hr, hm, hx⟩ := validate_ok_debts debts 0 h d hd
  exact ⟨hb.le, hr, hm, fun _ => hx rfl⟩

theorem calculate_ok_elim (debts : List Debt) (method : String) (ex : ℚ)
    (L : List MonthlyRecord)
    (h : calculate_debt_payoff debts method ex = Except.ok L) :
    validate debts ex = Except.ok () ∧
    L = simulate MAX_PAYOFF_MONTHS 1 ex 0 (sortDebts method debts) := by
  unfold calculate_debt_payoff at h
  cases hv : validate debts ex with
  | error e => rw [hv] at h; exact Except.noConfusion h
  | ok u =>
    cases u
    rw [hv] at h
    exact ⟨rfl, (Except.ok.inj h).symm⟩

/-! ### Strategy ordering -/

theorem sortDebts_perm (method : String) (debts : List Debt) :
    List.Perm (sortDebts method debts) debts := by
  unfold sortDebts
  split_ifs
  · exact List.perm_insertionSort _ _
  · exact List.perm_insertionSort _ _
  · exact List.Perm.refl _

theorem runMonths_rate_nonneg (debts : List Debt) (method : String) (ex : ℚ)
    (h : validate debts ex = Except.ok ()) (n : Nat) :
    ∀ d ∈ runMonths ex n (sortDebts method debts), 0 ≤ d.interest_rate := by
  intro d hd
  have hmap : (runMonths ex n (sortDebts method debts)).map Debt.interest_rate
      = (sortDebts method debts).map Debt.interest_rate :=
    runMonths_map_rate ex n (sortDebts method debts)
  have hmem : d.interest_rate ∈ (sortDebts method debts).map Debt.interest_rate := by
    rw [← hmap]; exact List.mem_map_of_mem _ hd
  obtain ⟨d0, hd0, heq⟩ := List.mem_map.mp hmem
  rw [← heq]
  exact (validate_ok_debts debts ex h d0
    ((sortDebts_perm method debts).mem_iff.mp hd0)).2.1

/-- Inserting `x` whose key is picked out by `p` never jumps over an element
with the same key: every element skipped by `orderedInsert` fails `r x ·`,
and `hskip` turns that into failing `p`. -/
theorem filter_orderedInsert_pos {α : Type} (r : α → α → Prop) [DecidableRel r]
    (p : α → Bool) (x : α) (hx : p x = true)
    (hskip : ∀ y, ¬ r x y → p y = false) :
    ∀ l : List α, (List.orderedInsert r x l).filter p = x :: l.filter p := by
  intro l
  induction l with
  | nil => simp [List.orderedInsert, hx]
  | cons b l ih =>
    rw [List.orderedInsert]
    by_cases hrb : r x b
    · rw [if_pos hrb, List.filter_cons, if_pos hx]
    · rw [if_neg hrb, List.filter_cons, List.filter_cons, hskip b hrb]
      simp only [Bool.false_eq_true, if_false]
      exact ih

theorem filter_orderedInsert_neg {α : Type} (r : α → α → Prop) [DecidableRel r]
    (p : α → Bool) (x : α) (hx : p x = false) :
    ∀ l : List α, (List.orderedInsert r x l).filter p = l.filter p := by
  intro l
  induction l with
  | nil => simp [List.orderedInsert, hx]
  | cons b l ih =>
    rw [List.orderedInsert]
    by_cases hrb : r x b
    · rw [if_pos hrb, List.filter_cons, if_neg (by simp [hx])]
    · rw [if_neg hrb, List.filter_cons, List.filter_cons]
      cases hpb : p b <;> simp [ih]

/-- Stability of insertion sort: filtering to the elements of one key value
returns them in their input order. -/
theorem filter_insertionSort {α : Type} (r : α → α → Prop) [DecidableRel r]
    (p : α → Bool) (hp : ∀ x y, p x = true → ¬ r x y → p y = false) :
    ∀ l : List α, (List.insertionSort r l).filter p = l.filter p := by
  intro l
  induction l with
  | nil => rfl
  | cons x l ih =>
    rw [List.insertionSort]
    cases hx : p x with
    | true =>
      rw [filter_orderedInsert_pos r p x hx (fun y hr => hp x y hx hr), ih,
        List.filter_cons, if_pos hx]
    | false =>
      rw [filter_orderedInsert_neg r p x hx, ih, List.filter_cons, if_neg (by simp [hx])]

/-! ### The claims -/

/-- C2: for every validated portfolio, strategy and extra payment,
`calculate_debt_payoff` terminates and returns a ledger of at most
`MAX_PAYOFF_MONTHS = 1200` monthly records; it stops earlier exactly when
every debt's balance has reached zero (is no longer positive): a ledger
shorter than 1200 means the state after its last recorded month has no
positive balance left, and as soon as the state after `k` months has no
positive balance the ledger has at most `k` records. -/
theorem claim_termination_ceiling (debts : List Debt) (method : String) (ex : ℚ)
    (L : List MonthlyRecord)
    (h : calculate_debt_payoff debts method ex = Except.ok L) :
    L.length ≤ MAX_PAYOFF_MONTHS ∧
    (L.length < MAX_PAYOFF_MONTHS →
      ∀ d ∈ runMonths ex L.length (sortDebts method debts), d.balance ≤ 0) ∧
    (∀ k, (∀ d ∈ runMonths ex k (sortDebts method debts), d.balance ≤ 0) →
      L.length ≤ k) := by
  obtain ⟨-, hL⟩ := calculate_ok_elim debts method ex L h
  subst hL
  exact ⟨simulate_length_le _ _ _ _ _,
    simulate_short_all_paid _ _ _ _ _,
    fun k hk => simulate_stops_by k _ _ _ _ _ hk⟩

/-- Witness for C2 at the concrete input `debtsOne`. -/
theorem claim_termination_ceiling_witness :
    ledgerOne.length ≤ MAX_PAYOFF_MONTHS ∧
    (ledgerOne.length < MAX_PAYOFF_MONTHS →
      ∀ d ∈ runMonths 0 ledgerOne.length (sortDebts "snowball" debtsOne),
        d.balance ≤ 0) ∧
    (∀ k, (∀ d ∈ runMonths 0 k (sortDebts "snowball" debtsOne), d.balance ≤ 0) →
      ledgerOne.length ≤ k) :=
  claim_termination_ceiling debtsOne "snowball" 0 ledgerOne rfl

/-- C3: `calculate_debt_payoff` raises a validation error if and only if the
debts list is empty, or some debt has non-positive balance, negative rate,
non-positive minimum payment, or a minimum payment at most the first month's
interest while the extra payment is zero, or the extra payment is negative.
(In the embedding an error result carries no ledger at all, so an error is
always raised before any record is observable.) -/
theorem claim_validation_error_iff (debts : List Debt) (method : String) (ex : ℚ) :
    (∃ e, calculate_debt_payoff debts method ex = Except.error e) ↔
      debts = [] ∨
      (∃ d ∈ debts, d.balance ≤ 0 ∨ d.interest_rate < 0 ∨ d.min_payment ≤ 0 ∨
        (d.min_payment ≤ d.balance * (d.interest_rate / 100) / 12 ∧ ex = 0)) ∨
      ex < 0 := by
  have hde : ∀ d : Debt, ¬ debtError ex d = none ↔
      (d.balance ≤ 0 ∨ d.interest_rate < 0 ∨ d.min_payment ≤ 0 ∨
        (d.min_payment ≤ d.balance * (d.interest_rate / 100) / 12 ∧ ex = 0)) := by
    intro d
    rw [debtError_eq_none]
    unfold monthlyInterest
    constructor
    · intro h
      rcases not_and_or.mp h with h1 | h
      · exact Or.inl (not_lt.mp h1)
      rcases not_and_or.mp h with h2 | h
      · exact Or.inr (Or.inl (not_le.mp h2))
      rcases not_and_or.mp h with h3 | h
      · exact Or.inr (Or.inr (Or.inl (not_lt.mp h3)))
      · exact Or.inr (Or.inr (Or.inr (not_not.mp h)))
    · rintro (h1 | h2 | h3 | h4)
      · exact fun ⟨hb, _⟩ => absurd hb (not_lt.mpr h1)
      · exact fun ⟨_, hr, _⟩ => absurd hr (not_le.mpr h2)
      · exact fun ⟨_, _, hm, _⟩ => absurd hm (not_lt.mpr h3)
      · exact fun ⟨_, _, _, hx⟩ => hx h4
  have herr : (∃ e, calculate_debt_payoff debts method ex = Except.error e) ↔
      ¬ validate debts ex = Except.ok () := by
    unfold calculate_debt_payoff
    cases hv : validate debts ex with
    | error e =>
      exact ⟨fun _ hok => (nomatch hok), fun _ => ⟨e, rfl⟩⟩
    | ok u =>
      constructor
      · rintro ⟨e2, he⟩
        exact nomatch he
      · intro hok
        cases u
        exact absurd rfl hok
  rw [herr, validate_ok_iff]
  constructor
  · intro h
    by_cases hemp : debts = []
    · exact Or.inl hemp
    by_cases hex : ex < 0
    · exact Or.inr (Or.inr hex)
    by_cases hall : ∀ d ∈ debts, debtError ex d = none
    · exact absurd ⟨hemp, hall, not_lt.mp hex⟩ h
    · push_neg at hall
      obtain ⟨d, hd, hfail⟩ := hall
      exact Or.inr (Or.inl ⟨d, hd, (hde d).mp hfail⟩)
  · rintro (hemp | ⟨d, hd, hfail⟩ | hex)
    · rintro ⟨hne, -, -⟩; exact hne hemp
    · rintro ⟨-, hall, -⟩; exact (hde d).mpr hfail (hall d hd)
    · rintro ⟨-, -, hex2⟩; exact absurd hex (not_lt.mpr hex2)

/-- C4: the working order of the simulation is a permutation of the input
that is sorted ascending by balance for `snowball` and descending by rate
for `avalanche`, and in both cases it is stable: restricting the sorted list
to the debts of any one key value returns them in input order.  (These three
facts determine the output uniquely, so the order is independent of anything
but the keys and the input order of ties.) -/
theorem claim_strategy_ordering (debts : List Debt) :
    (List.Perm (sortDebts "snowball" debts) debts ∧
      List.Sorted balanceLe (sortDebts "snowball" debts) ∧
      ∀ b : ℚ, (sortDebts "snowball" debts).filter (fun d => decide (d.balance = b)) =
        debts.filter (fun d => decide (d.balance = b))) ∧
    (List.Perm (sortDebts "avalanche" debts) debts ∧
      List.Sorted rateGe (sortDebts "avalanche" debts) ∧
      ∀ q : ℚ, (sortDebts "avalanche" debts).filter
          (fun d => decide (d.interest_rate = q)) =
        debts.filter (fun d => decide (d.interest_rate = q))) := by
  have hs : sortDebts "snowball" debts = List.insertionSort balanceLe debts := by
    unfold sortDebts; rw [if_pos rfl]
  have ha : sortDebts "avalanche" debts = List.insertionSort rateGe debts := by
    unfold sortDebts; rw [if_neg (by decide), if_pos rfl]
  refine ⟨⟨?_, ?_, ?_⟩, ?_, ?_, ?_⟩
  · rw [hs]; exact List.perm_insertionSort _ _
  · rw [hs]; exact List.sorted_insertionSort _ _
  · intro b
    rw [hs]
    apply filter_insertionSort
    intro x y hx hr
    have hr' : ¬ (x.balance ≤ y.balance) := hr
    have hxb : x.balance = b := of_decide_eq_true hx
    apply decide_eq_false
    rw [← hxb]
    exact ne_of_lt (not_le.mp hr')
  · rw [ha]; exact List.perm_insertionSort _ _
  · rw [ha]; exact List.sorted_insertionSort _ _
  · intro q
    rw [ha]
    apply filter_insertionSort
    intro x y hx hr
    have hr' : ¬ (y.interest_rate ≤ x.interest_rate) := hr
    have hxq : x.interest_rate = q := of_decide_eq_true hx
    apply decide_eq_false
    rw [← hxq]
    exact ne_of_gt (not_le.mp hr')

/-- C8 (Scenario A): one debt with balance 1200, rate 0, minimum payment 100
and no extra payment pays off in exactly 12 recorded months, with final
balance 0 and cumulative interest 0. -/
theorem claim_scenario_a :
    (calculate_debt_payoff debtsScenarioA "snowball" 0).toOption = some ledgerScenarioA ∧
    ledgerScenarioA.length = 12 ∧
    ledgerScenarioA.getLast? = some
      { month := 12, totalPayment := 100, totalInterestPaid := 0,
        rows := [⟨"D1", 0, 100, 0⟩] } :=
  ⟨rfl, by decide, by decide⟩

/-- C9: in the non-payoff branch with a positive remaining pool `R`, a debt
is paid `min_payment + R`, and the pool left for the next debt in strategy
order is `min R interest` rather than 0 — strictly positive whenever the
debt's monthly interest is positive.  Concretely (`debtsPool`, extra 30):
month 1 pays 80 on "X" and 60 = 50 + 10 on "Y", total 140, which exceeds
the two minimum payments plus the extra payment (130). -/
theorem claim_extra_pool_rollover (R : ℚ) (d : Debt) (hb : 0 < d.balance)
    (hR : 0 < R) (hbranch : d.min_payment < d.balance + monthlyInterest d) :
    (debtStep R d).row = some
      { name := d.name,
        balance := d.balance - (d.min_payment + R - monthlyInterest d),
        payment := d.min_payment + R, interest := monthlyInterest d } ∧
    (debtStep R d).pool = min R (monthlyInterest d) ∧
    (0 < monthlyInterest d → 0 < (debtStep R d).pool) ∧
    ledgerPool.head?.map MonthlyRecord.totalPayment = some 140 ∧
    ((ledgerPool.head?.map MonthlyRecord.rows).getD []).map DebtRow.payment = [80, 60] ∧
    (50 : ℚ) + 50 + 30 < 140 := by
  have hnb : ¬ d.balance ≤ 0 := not_le.mpr hb
  have hnp : ¬ d.balance + monthlyInterest d ≤ d.min_payment := not_le.mpr hbranch
  have hpool : (debtStep R d).pool = min R (monthlyInterest d) := by
    unfold debtStep
    rw [if_neg hnb]
    simp only [if_neg hnp, if_pos hR]
    rcases le_total R (monthlyInterest d) with hc | hc
    · rw [max_eq_left (by linarith), min_eq_left hc]
      ring
    · rw [max_eq_right (by linarith), min_eq_right hc]
      ring
  refine ⟨?_, hpool, fun hi => ?_, by decide, by decide, by norm_num⟩
  · unfold debtStep
    rw [if_neg hnb]
    simp only [if_neg hnp, if_pos hR]
  · rw [hpool]
    exact lt_min hR hi

/-- Witness for C9 at pool 30 and the debt "X" of `debtsPool`. -/
theorem claim_extra_pool_rollover_witness :
    (debtStep 30 ⟨"X", 1000, 12, 50⟩).pool =
      min 30 (monthlyInterest ⟨"X", 1000, 12, 50⟩) :=
  (claim_extra_pool_rollover 30 ⟨"X", 1000, 12, 50⟩ (by decide) (by decide)
    (by decide)).2.1

/-- C10: an unrecognised method string raises no error on its own account:
the debts are left in their original input order and the result is exactly
validation followed by the full simulation, as for the two recognised
strategies. -/
theorem claim_unknown_method (debts : List Debt) (method : String) (ex : ℚ)
    (h1 : method ≠ "snowball") (h2 : method ≠ "avalanche") :
    sortDebts method debts = debts ∧
    calculate_debt_payoff debts method ex =
      Except.map (fun _ => simulate MAX_PAYOFF_MONTHS 1 ex 0 debts)
        (validate debts ex) := by
  have hs : sortDebts method debts = debts := by
    unfold sortDebts; rw [if_neg h1, if_neg h2]
  refine ⟨hs, ?_⟩
  unfold calculate_debt_payoff
  rw [hs]
  cases validate debts ex with
  | error e => rfl
  | ok u => rfl

/-- Witness for C10 at the unrecognised method "foo". -/
theorem claim_unknown_method_witness :
    sortDebts "foo" debtsOne = debtsOne ∧
    calculate_debt_payoff debtsOne "foo" 0 =
      Except.map (fun _ => simulate MAX_PAYOFF_MONTHS 1 0 0 debtsOne)
        (validate debtsOne 0) :=
  claim_unknown_method debtsOne "foo" 0 (by decide) (by decide)

/-- C1 is false as stated: the validated input `debtsOverpay` (balance 10,
rate 0, minimum payment 5) with extra payment 100 yields a month-1 payment
of 105 and a recorded balance of -95 < 0. -/
theorem claim_balance_monotone_counterexample :
    (calculate_debt_payoff debtsOverpay "snowball" 100).toOption = some ledgerOverpay ∧
    ¬ (∀ r ∈ ledgerOverpay, ∀ row ∈ r.rows, 0 ≤ row.balance) :=
  ⟨rfl, by decide⟩

/-- C1 (amended): when the extra payment is 0 (and debt names are distinct,
as the data model requires), every recorded balance is non-negative and each
debt's recorded balance is non-increasing from one month's record to the
next. -/
theorem claim_balance_monotone_amended (debts : List Debt) (method : String)
    (L : List MonthlyRecord) (hnd : (debts.map Debt.name).Nodup)
    (h : calculate_debt_payoff debts method 0 = Except.ok L) :
    (∀ r ∈ L, ∀ row ∈ r.rows, 0 ≤ row.balance) ∧
    (∀ i r1 r2, L.get? i = some r1 → L.get? (i + 1) = some r2 →
      ∀ row2 ∈ r2.rows, ∀ row1 ∈ r1.rows, row1.name = row2.name →
        row2.balance ≤ row1.balance) := by
  obtain ⟨hv, hL⟩ := calculate_ok_elim debts method 0 L h
  have hG : ∀ d ∈ sortDebts method debts, GoodDebt d := fun d hd =>
    validate_ok_good debts hv d ((sortDebts_perm method debts).mem_iff.mp hd)
  have hGn : ∀ n, ∀ d ∈ runMonths 0 n (sortDebts method debts), GoodDebt d :=
    fun n => runMonths_zero_good n _ hG
  subst hL
  constructor
  · intro r hr row hrow
    obtain ⟨i, hi⟩ := List.get?_of_mem hr
    obtain ⟨-, hrows, -, -⟩ := simulate_get?_spec _ _ _ _ _ i r hi
    rw [hrows] at hrow
    obtain ⟨d, hd, -, -, h0⟩ := (monthLoop_zero_spec _ (hGn i)).2.2 row hrow
    exact h0
  · intro i r1 r2 h1 h2 row2 hrow2 row1 hrow1 hname
    obtain ⟨-, hrows1, -, -⟩ := simulate_get?_spec _ _ _ _ _ i r1 h1
    obtain ⟨-, hrows2, -, -⟩ := simulate_get?_spec _ _ _ _ _ (i + 1) r2 h2
    rw [hrows1] at hrow1
    rw [hrows2, runMonths_succ_back] at hrow2
    obtain ⟨d1, hd1, hd1name, hd1bal⟩ :=
      (monthLoop_zero_spec _ (hGn i)).2.1 row1 hrow1
    have hG1 : ∀ d ∈ (monthLoop 0 (runMonths 0 i (sortDebts method debts))).debts,
        GoodDebt d := (monthLoop_zero_spec _ (hGn i)).1
    obtain ⟨d2, hd2, hd2name, hd2le, -⟩ :=
      (monthLoop_zero_spec _ hG1).2.2 row2 hrow2
    have hnd1 : (((monthLoop 0 (runMonths 0 i (sortDebts method debts))).debts).map
        Debt.name).Nodup := by
      rw [monthLoop_map_name, runMonths_map_name]
      exact ((sortDebts_perm method debts).map Debt.name).nodup_iff.mpr hnd
    have hEq : d2 = d1 := by
      apply List.inj_on_of_nodup_map hnd1 hd2 hd1
      rw [hd2name, hd1name]
      exact hname.symm
    rw [← hd1bal, ← hEq]
    exact hd2le

/-- Witness for the amended C1 at the concrete input `debtsOne`. -/
theorem claim_balance_monotone_amended_witness :
    (∀ r ∈ ledgerOne, ∀ row ∈ r.rows, 0 ≤ row.balance) ∧
    (∀ i r1 r2, ledgerOne.get? i = some r1 → ledgerOne.get? (i + 1) = some r2 →
      ∀ row2 ∈ r2.rows, ∀ row1 ∈ r1.rows, row1.name = row2.name →
        row2.balance ≤ row1.balance) :=
  claim_balance_monotone_amended debtsOne "snowball" ledgerOne (by decide) rfl

/-- C5 is false as stated: in `ledgerTwo`, the month-2 record carries no
balance/payment/interest columns at all for the debt "A" paid off in
month 1 — a paid-off debt contributes no columns rather than zeros. -/
theorem claim_monthly_record_counterexample :
    (calculate_debt_payoff debtsTwo "snowball" 0).toOption = some ledgerTwo ∧
    ¬ (∀ r ∈ ledgerTwo, ∀ d ∈ debtsTwo, ∃ row ∈ r.rows, row.name = d.name) :=
  ⟨rfl, by decide⟩

/-- C5 (amended): every MonthlyRecord carries the month index (its position
plus one), one balance/payment/interest column group per debt that was still
open (positive balance) at the start of that month, in strategy order — paid
off debts contribute no columns — and a total payment equal to the sum of
the per-debt payment columns present. -/
theorem claim_monthly_record_amended (debts : List Debt) (method : String)
    (ex : ℚ) (L : List MonthlyRecord)
    (h : calculate_debt_payoff debts method ex = Except.ok L) :
    ∀ i r, L.get? i = some r →
      r.month = i + 1 ∧
      r.rows.map DebtRow.name =
        ((runMonths ex i (sortDebts method debts)).filter
          (fun d => decide (0 < d.balance))).map Debt.name ∧
      r.totalPayment = (r.rows.map DebtRow.payment).sum := by
  obtain ⟨-, hL⟩ := calculate_ok_elim debts method ex L h
  subst hL
  intro i r hi
  obtain ⟨hm, hrows, hpay, -⟩ := simulate_get?_spec _ _ _ _ _ i r hi
  refine ⟨by omega, ?_, hpay⟩
  rw [hrows, monthLoop_rows_map_name]

/-- Witness for the amended C5: the first record of `ledgerOne`. -/
theorem claim_monthly_record_amended_witness :
    (⟨1, 100, 0, [⟨"A", 0, 100, 0⟩]⟩ : MonthlyRecord).month = 0 + 1 ∧
    (⟨1, 100, 0, [⟨"A", 0, 100, 0⟩]⟩ : MonthlyRecord).rows.map DebtRow.name =
      ((runMonths 0 0 (sortDebts "snowball" debtsOne)).filter
        (fun d => decide (0 < d.balance))).map Debt.name ∧
    (⟨1, 100, 0, [⟨"A", 0, 100, 0⟩]⟩ : MonthlyRecord).totalPayment =
      ((⟨1, 100, 0, [⟨"A", 0, 100, 0⟩]⟩ : MonthlyRecord).rows.map
        DebtRow.payment).sum :=
  claim_monthly_record_amended debtsOne "snowball" 0 ledgerOne rfl 0
    ⟨1, 100, 0, [⟨"A", 0, 100, 0⟩]⟩ (by decide)

/-- C6: for every debt processed in every month, the recorded new balance is
the debt's pre-payment balance minus (payment − interest), with the interest
charge computed on the pre-payment balance as balance·(rate/100)/12; and the
record's cumulative "Total Interest Paid" equals the sum of all per-debt
interest columns over the records up to and including it. -/
theorem claim_conservation (debts : List Debt) (method : String) (ex : ℚ)
    (L : List MonthlyRecord)
    (h : calculate_debt_payoff debts method ex = Except.ok L) :
    (∀ i r, L.get? i = some r → ∀ row ∈ r.rows,
      ∃ d ∈ runMonths ex i (sortDebts method debts), 0 < d.balance ∧
        row.name = d.name ∧
        row.interest = d.balance * (d.interest_rate / 100) / 12 ∧
        row.balance = d.balance - (row.payment - row.interest)) ∧
    (∀ i r, L.get? i = some r → r.totalInterestPaid =
      ((L.take (i + 1)).map (fun x => (x.rows.map DebtRow.interest).sum)).sum) := by
  obtain ⟨-, hL⟩ := calculate_ok_elim debts method ex L h
  subst hL
  constructor
  · intro i r hi row hrow
    obtain ⟨-, hrows, -, -⟩ := simulate_get?_spec _ _ _ _ _ i r hi
    rw [hrows] at hrow
    obtain ⟨d, hd, hpos, hname, hint, hbal⟩ := monthLoop_rows_spec _ _ row hrow
    exact ⟨d, hd, hpos, hname, hint, hbal⟩
  · intro i r hi
    obtain ⟨-, -, -, htip⟩ := simulate_get?_spec _ _ _ _ _ i r hi
    rw [htip]
    exact zero_add _

/-- Witness for C6: the single row of `ledgerOne`'s only record. -/
theorem claim_conservation_witness :
    ∃ d ∈ runMonths 0 0 (sortDebts "snowball" debtsOne), 0 < d.balance ∧
      (⟨"A", 0, 100, 0⟩ : DebtRow).name = d.name ∧
      (⟨"A", 0, 100, 0⟩ : DebtRow).interest = d.balance * (d.interest_rate / 100) / 12 ∧
      (⟨"A", 0, 100, 0⟩ : DebtRow).balance = d.balance -
        ((⟨"A", 0, 100, 0⟩ : DebtRow).payment - (⟨"A", 0, 100, 0⟩ : DebtRow).interest) :=
  (claim_conservation debtsOne "snowball" 0 ledgerOne rfl).1 0
    ⟨1, 100, 0, [⟨"A", 0, 100, 0⟩]⟩ (by decide) ⟨"A", 0, 100, 0⟩ (by decide)

/-- C7: across successive records of any validated run's ledger, the
cumulative "Total Interest Paid" value never decreases. -/
theorem claim_total_interest_monotone (debts : List Debt) (method : String)
    (ex : ℚ) (L : List MonthlyRecord)
    (h : calculate_debt_payoff debts method ex = Except.ok L) :
    ∀ i r1 r2, L.get? i = some r1 → L.get? (i + 1) = some r2 →
      r1.totalInterestPaid ≤ r2.totalInterestPaid := by
  obtain ⟨hv, hL⟩ := calculate_ok_elim debts method ex L h
  subst hL
  intro i r1 r2 h1 h2
  obtain ⟨-, -, -, htip1⟩ := simulate_get?_spec _ _ _ _ _ i r1 h1
  obtain ⟨-, hrows2, -, htip2⟩ := simulate_get?_spec _ _ _ _ _ (i + 1) r2 h2
  rw [htip1, htip2]
  have htake : (simulate MAX_PAYOFF_MONTHS 1 ex 0 (sortDebts method debts)).take
        (i + 1 + 1) =
      (simulate MAX_PAYOFF_MONTHS 1 ex 0 (sortDebts method debts)).take (i + 1)
        ++ [r2] := by
    have h2g : (simulate MAX_PAYOFF_MONTHS 1 ex 0 (sortDebts method debts))[i + 1]?
        = some r2 := by
      rw [← List.get?_eq_getElem?]
      exact h2
    rw [List.take_succ, h2g]
    rfl
  rw [htake, List.map_append, List.sum_append]
  have hnn : 0 ≤ (r2.rows.map DebtRow.interest).sum := by
    apply List.sum_nonneg
    intro x hx
    rcases List.mem_map.mp hx with ⟨row, hrow, rfl⟩
    rw [hrows2] at hrow
    obtain ⟨d, hd, hpos, -, hint, -⟩ := monthLoop_rows_spec _ _ row hrow
    rw [hint]
    exact monthlyInterest_nonneg d hpos.le
      (runMonths_rate_nonneg debts method ex hv (i + 1) d hd)
  have hsum : ([r2].map (fun x => (x.rows.map DebtRow.interest).sum)).sum =
      (r2.rows.map DebtRow.interest).sum := by
    simp
  rw [hsum]
  linarith

/-- Witness for C7: the first two records of `ledgerTwo`. -/
theorem claim_total_interest_monotone_witness :
    (⟨1, 200, 0, [⟨"A", 0, 100, 0⟩, ⟨"B", 200, 100, 0⟩]⟩ :
        MonthlyRecord).totalInterestPaid ≤
      (⟨2, 100, 0, [⟨"B", 100, 100, 0⟩]⟩ : MonthlyRecord).totalInterestPaid :=
  claim_total_interest_monotone debtsTwo "snowball" 0 ledgerTwo rfl 0
    ⟨1, 200, 0, [⟨"A", 0, 100, 0⟩, ⟨"B", 200, 100, 0⟩]⟩
    ⟨2, 100, 0, [⟨"B", 100, 100, 0⟩]⟩ (by decide) (by decide)

end DebtPayoff
